import Mathlib

/-!
Shallow embedding of the coordination layer of the `node-llama-cpp` Limbo
deployment module: the network coordinator
(`src/deployment/network/NetworkCoordinator.ts`), the Dis-VM manager
(`src/deployment/dis-vm/DisVMManager.ts`) and the deployment manager
(`src/deployment/LimboDeploymentManager.ts`).

Modelling choices:
- JavaScript `Map`s become insertion-ordered lists (`Map.set` replaces in
  place or appends; iteration follows insertion order).
- `number` weights and the `Math.random()` draws become rationals; ports
  and timestamps become naturals; the `connections` counter becomes an
  integer so that non-negativity is a provable invariant, not a typing
  artifact.
- External collaborators (the isolate transport and the clock) are an
  explicit environment: `sendOk` says whether `isolate.send` resolves,
  `sendResult` what it resolves with, `rands` is the stream of random
  draws, `now` the clock.
- The recursive failover in `NetworkCoordinator.dispatch` is embedded with
  explicit fuel; a separate theorem shows that fuel exceeding the number
  of healthy nodes always suffices, which is the termination argument.
- Throwing code returns `Except` carrying the thrown message.
-/

set_option maxHeartbeats 1000000

namespace NodeLlamaCpp

/-- Load balancing strategies (`LoadBalancingStrategy` in
`NetworkCoordinator.ts`). -/
inductive LoadBalancingStrategy
  | roundRobin
  | leastConnections
  | random
  | weightedRandom
deriving DecidableEq, Repr

/-- A node of the distributed network (`NetworkNode` in
`NetworkCoordinator.ts`). -/
structure NetworkNode where
  isolateId : String
  address : String
  port : Nat
  isHealthy : Bool
  connections : Int
  weight : ℚ
deriving DecidableEq, Repr

/-- An inference request (`InferenceRequest` in `NetworkCoordinator.ts`);
the `options` record is opaque to the coordinator and omitted. -/
structure InferenceRequest where
  requestId : String
  prompt : String
deriving DecidableEq, Repr

/-- An inference response (`InferenceResponse` in `NetworkCoordinator.ts`). -/
structure InferenceResponse where
  requestId : String
  nodeId : String
  result : String
  timestamp : Nat
deriving DecidableEq, Repr

/-- The external collaborators seen by one coordinator call: transport
behaviour per isolate id, the stream of `Math.random()` draws and the
clock. -/
structure NetworkEnv where
  sendOk : String → Bool
  sendResult : String → String
  rands : Nat → ℚ
  now : Nat

/-- The mutable state of a `NetworkCoordinator` together with the isolate
registry of its `DisVMManager` (`this.nodes`, `this.roundRobinIndex`,
`disVMManager.isolates`, and the two configuration fields the dispatch
logic reads). -/
structure CoordinatorState where
  nodes : List NetworkNode
  isolates : List String
  roundRobinIndex : Nat
  enableFailover : Bool
  strategy : LoadBalancingStrategy
deriving DecidableEq, Repr

/-- The healthy-node snapshot `Array.from(this.nodes.values()).filter(n => n.isHealthy)`. -/
def healthyNodes (s : CoordinatorState) : List NetworkNode :=
  s.nodes.filter (fun n => n.isHealthy)

/-- Number of healthy nodes in the registry. -/
def healthyCount (s : CoordinatorState) : Nat :=
  s.nodes.countP (fun n => n.isHealthy)

/-- `selectRoundRobin`: `nodes[this.roundRobinIndex % nodes.length]`, then
increment the cursor.  `d` is the value of the out-of-range lookup, which
cannot occur for a nonempty list. -/
def selectRoundRobin (nodes : List NetworkNode) (idx : Nat) (d : NetworkNode) :
    NetworkNode × Nat :=
  (nodes.getD (idx % nodes.length) d, idx + 1)

/-- `selectLeastConnections`: `nodes.reduce((least, current) =>
current.connections < least.connections ? current : least)`.  JavaScript
`reduce` without seed starts from the head, so the head is passed
separately. -/
def selectLeastConnections (h0 : NetworkNode) (t : List NetworkNode) : NetworkNode :=
  t.foldl (fun least current =>
    if current.connections < least.connections then current else least) h0

/-- `selectRandom`: `nodes[Math.floor(Math.random() * nodes.length)]`,
with `u` the drawn value (in `[0, 1)` for a genuine draw). -/
def selectRandom (nodes : List NetworkNode) (u : ℚ) (d : NetworkNode) : NetworkNode :=
  nodes.getD (Int.toNat (u * (nodes.length : ℚ)).floor) d

/-- `totalWeight`: `nodes.reduce((sum, node) => sum + node.weight, 0)`. -/
def totalWeight (nodes : List NetworkNode) : ℚ :=
  nodes.foldl (fun sum node => sum + node.weight) 0

/-- The `for (const node of nodes)` walk of `selectWeightedRandom`:
subtract each weight from the remaining draw `r` and return the first
node at which the remainder drops to `≤ 0`; `none` when the loop falls
through. -/
def selectWeightedRandomGo : List NetworkNode → ℚ → Option NetworkNode
  | [], _ => none
  | n :: rest, r =>
    let r2 := r - n.weight
    if r2 ≤ 0 then some n else selectWeightedRandomGo rest r2

/-- `selectWeightedRandom`, taking the already scaled draw `r`
(`Math.random() * totalWeight` in the source; exact arithmetic never
produces `r > totalWeight`, but floating-point drift can, which is why
the argument ranges over all rationals).  When the walk selects nothing
the source returns `nodes[0]!`, i.e. the FIRST node of the snapshot. -/
def selectWeightedRandom (nodes : List NetworkNode) (r : ℚ) : Option NetworkNode :=
  match selectWeightedRandomGo nodes r with
  | some n => some n
  | none => nodes.head?

/-- `selectNode`: filter the healthy snapshot, return `null` when it is
empty, otherwise defer to the configured strategy.  `u` is the random
draw consumed by the randomized strategies; the returned `Nat` is the new
round-robin cursor. -/
def selectNode (s : CoordinatorState) (u : ℚ) : Option NetworkNode × Nat :=
  match healthyNodes s with
  | [] => (none, s.roundRobinIndex)
  | h :: t =>
    match s.strategy with
    | .roundRobin =>
      let p := selectRoundRobin (h :: t) s.roundRobinIndex h
      (some p.1, p.2)
    | .leastConnections => (some (selectLeastConnections h t), s.roundRobinIndex)
    | .random => (some (selectRandom (h :: t) u h), s.roundRobinIndex)
    | .weightedRandom =>
      (some ((selectWeightedRandom (h :: t) (u * totalWeight (h :: t))).getD h),
       s.roundRobinIndex)

/-- Pointwise effect of `node.connections++` on the registry entry with
the given id. -/
def incFun (id : String) (n : NetworkNode) : NetworkNode :=
  if n.isolateId = id then { n with connections := n.connections + 1 } else n

/-- Pointwise effect of `node.connections--` on the registry entry with
the given id. -/
def decFun (id : String) (n : NetworkNode) : NetworkNode :=
  if n.isolateId = id then { n with connections := n.connections - 1 } else n

/-- Pointwise effect of `node.isHealthy = false` on the registry entry
with the given id. -/
def markFun (id : String) (n : NetworkNode) : NetworkNode :=
  if n.isolateId = id then { n with isHealthy := false } else n

/-- `node.connections++` for the selected node (the source mutates the
aliased map entry; ids are unique map keys, so updating by id is the same
mutation). -/
def incConnections (s : CoordinatorState) (id : String) : CoordinatorState :=
  { s with nodes := s.nodes.map (incFun id) }

/-- `node.connections--` for the selected node. -/
def decConnections (s : CoordinatorState) (id : String) : CoordinatorState :=
  { s with nodes := s.nodes.map (decFun id) }

/-- `node.isHealthy = false` for the selected node. -/
def markUnhealthy (s : CoordinatorState) (id : String) : CoordinatorState :=
  { s with nodes := s.nodes.map (markFun id) }

/-- The errors `dispatch` can reject with. -/
inductive DispatchError
  | noHealthyNodes
  | isolateNotFound (id : String)
  | sendFailed (id : String)
deriving DecidableEq, Repr

/-- The message of each dispatch rejection as thrown by the source
(`"No healthy nodes available"`, `` `Isolate ${id} not found` `` from the
coordinator, and the stub isolate's own `send` rejection). -/
def DispatchError.message : DispatchError → String
  | .noHealthyNodes => "No healthy nodes available"
  | .isolateNotFound id => "Isolate " ++ id ++ " not found"
  | .sendFailed id => "Isolate " ++ id ++ " is not running"

/-- `NetworkCoordinator.dispatch` with explicit fuel; `none` means the
fuel ran out (the source's recursion would still be running).  One
attempt: select a node (reject with `noHealthyNodes` when the healthy
snapshot is empty), `connections++`, look the isolate up and send; on
success `connections--` and answer; on any failure `connections--`, and
when failover is enabled mark the node unhealthy and recurse, otherwise
rethrow.  `k` indexes the random stream; the returned `Nat` counts the
send attempts (the recursion depth). -/
def dispatchFuel : Nat → NetworkEnv → InferenceRequest → Nat → CoordinatorState →
    Option ((Except DispatchError InferenceResponse × CoordinatorState) × Nat)
  | 0, _, _, _, _ => none
  | fuel + 1, env, req, k, s =>
    match selectNode s (env.rands k) with
    | (none, i) => some ((.error .noHealthyNodes, { s with roundRobinIndex := i }), 0)
    | (some node, i) =>
      let s2 := incConnections { s with roundRobinIndex := i } node.isolateId
      if s.isolates.contains node.isolateId && env.sendOk node.isolateId then
        some ((.ok { requestId := req.requestId, nodeId := node.isolateId,
                     result := env.sendResult node.isolateId, timestamp := env.now },
               decConnections s2 node.isolateId), 1)
      else
        let s3 := decConnections s2 node.isolateId
        if s.enableFailover then
          match dispatchFuel fuel env req (k + 1) (markUnhealthy s3 node.isolateId) with
          | none => none
          | some ((res, s'), a) => some ((res, s'), a + 1)
        else
          some ((.error (if s.isolates.contains node.isolateId then
                   .sendFailed node.isolateId
                 else .isolateNotFound node.isolateId), s3), 1)

/-- Configuration of one Dis-VM isolate (`DisVMIsolateConfig` in
`DisVMManager.ts`); the environment-variable record does not influence
the coordinator and is omitted.  Note the type has no weight field. -/
structure DisVMIsolateConfig where
  isolateId : String
  modulePath : String
  address : Option String
  port : Option Nat
deriving DecidableEq, Repr

/-- JavaScript `Map.set` on the node registry: replace the entry with the
same key in place, otherwise append. -/
def mapSet : List NetworkNode → NetworkNode → List NetworkNode
  | [], node => [node]
  | n :: rest, node =>
    if n.isolateId = node.isolateId then node :: rest else n :: mapSet rest node

/-- `NetworkCoordinator.deployNode`: create and start the isolate
(`createIsolate` throws when the id already exists, leaving everything
unchanged), then register the node with `isHealthy = true`,
`connections = 0` and `weight = 1.0` — the registered weight is the
literal `1.0` whatever the descriptor said. -/
def deployNode (s : CoordinatorState) (cfg : DisVMIsolateConfig) :
    Except String CoordinatorState :=
  if s.isolates.contains cfg.isolateId then
    .error ("Isolate " ++ cfg.isolateId ++ " already exists")
  else
    let node : NetworkNode :=
      { isolateId := cfg.isolateId
        address := cfg.address.getD "localhost"
        port := cfg.port.getD 8000
        isHealthy := true
        connections := 0
        weight := 1 }
    .ok { s with isolates := s.isolates ++ [cfg.isolateId]
                 nodes := mapSet s.nodes node }

/-- `NetworkCoordinator.removeNode`: throw `` `Node ${id} not found` ``
when the node is not registered; `removeIsolate` throws
`` `Isolate ${id} not found` `` when the isolate is gone (before the node
is unregistered); otherwise drop both entries. -/
def removeNode (s : CoordinatorState) (nodeId : String) : Except String CoordinatorState :=
  if (s.nodes.find? (fun n => n.isolateId = nodeId)).isNone then
    .error ("Node " ++ nodeId ++ " not found")
  else if !s.isolates.contains nodeId then
    .error ("Isolate " ++ nodeId ++ " not found")
  else
    .ok { s with isolates := s.isolates.filter (fun i => i ≠ nodeId)
                 nodes := s.nodes.filter (fun n => n.isolateId ≠ nodeId) }

/-- One node's treatment inside `performHealthCheck`: a node whose
isolate handle is gone is set unhealthy with no notification; otherwise
the probe outcome decides `isHealthy`, and a failing probe always emits a
`node-unhealthy` notification (the event carries the node id). -/
def healthProbe (env : NetworkEnv) (isolates : List String) (n : NetworkNode) :
    NetworkNode × Option String :=
  if isolates.contains n.isolateId then
    if env.sendOk n.isolateId then ({ n with isHealthy := true }, none)
    else ({ n with isHealthy := false }, some n.isolateId)
  else
    ({ n with isHealthy := false }, none)

/-- `NetworkCoordinator.performHealthCheck`: probe every registered node
in registry order; returns the updated state and the list of
`node-unhealthy` notifications of this tick, in emission order. -/
def healthTick (env : NetworkEnv) (s : CoordinatorState) :
    CoordinatorState × List String :=
  ({ s with nodes := s.nodes.map (fun n => (healthProbe env s.isolates n).1) },
   s.nodes.filterMap (fun n => (healthProbe env s.isolates n).2))

/-- One coordinator-level operation, for stating registry invariants over
arbitrary operation sequences. -/
inductive CoordOp
  | deployNodeOp (cfg : DisVMIsolateConfig)
  | removeNodeOp (id : String)
  | dispatchOp (env : NetworkEnv) (req : InferenceRequest) (k : Nat)
  | healthTickOp (env : NetworkEnv)

/-- Apply one operation to the coordinator state (a throwing operation
leaves the state it left in the source: unchanged for `deployNode` /
`removeNode` guard failures; `dispatch` is run with sufficient fuel). -/
def applyOp (s : CoordinatorState) : CoordOp → CoordinatorState
  | .deployNodeOp cfg =>
    match deployNode s cfg with
    | .ok s' => s'
    | .error _ => s
  | .removeNodeOp id =>
    match removeNode s id with
    | .ok s' => s'
    | .error _ => s
  | .dispatchOp env req k =>
    match dispatchFuel (healthyCount s + 1) env req k s with
    | some ((_, s'), _) => s'
    | none => s
  | .healthTickOp env => (healthTick env s).1

/-- All in-flight counters of the registry are non-negative. -/
def allConnNonneg (s : CoordinatorState) : Prop :=
  ∀ n ∈ s.nodes, 0 ≤ n.connections

instance (s : CoordinatorState) : Decidable (allConnNonneg s) := by
  unfold allConnNonneg; infer_instance

/-- The id / in-flight-counter view of a node, used to state that
dispatch restores every counter. -/
def connView (n : NetworkNode) : String × Int := (n.isolateId, n.connections)

/-- Deployment status (`DeploymentStatus` in `LimboDeploymentManager.ts`). -/
inductive DeploymentStatus
  | initializing
  | running
  | paused
  | stopped
  | errorState
deriving DecidableEq, Repr

/-- The string value of each status member, as interpolated into error
messages. -/
def statusString : DeploymentStatus → String
  | .initializing => "initializing"
  | .running => "running"
  | .paused => "paused"
  | .stopped => "stopped"
  | .errorState => "error"

/-- One node entry of the deployment configuration (`NodeConfig` in
`DeploymentConfig.ts`). -/
structure NodeConfig where
  id : String
  address : String
  port : Nat
  weight : Option ℚ
deriving DecidableEq, Repr

/-- The state of a `LimboDeploymentManager` (its status, coordinator, and
the configuration fields the orchestration logic reads; the source never
mutates `config.nodes` after construction, which this embedding keeps). -/
structure ManagerState where
  status : DeploymentStatus
  coordinator : Option CoordinatorState
  requestCounter : Nat
  configName : String
  configModulePath : String
  configNodes : List NodeConfig
  configBasePort : Nat
  configStrategy : LoadBalancingStrategy
  configEnableFailover : Bool
deriving DecidableEq, Repr

/-- The isolate configuration `deploy` builds from a node entry: id,
module path, address and port are forwarded; the weight (and everything
else) is not. -/
def toIsolateConfig (modulePath : String) (nc : NodeConfig) : DisVMIsolateConfig :=
  { isolateId := nc.id
    modulePath := modulePath
    address := some nc.address
    port := some nc.port }

/-- The `for (const nodeConfig of this.config.nodes)` loop of `deploy`:
deploy each node in order, stopping at the first failure. -/
def deployAllNodes (modulePath : String) :
    CoordinatorState → List NodeConfig → Except String Unit × CoordinatorState
  | cs, [] => (.ok (), cs)
  | cs, nc :: rest =>
    match deployNode cs (toIsolateConfig modulePath nc) with
    | .error e => (.error e, cs)
    | .ok cs' => deployAllNodes modulePath cs' rest

/-- `LimboDeploymentManager.deploy`: only valid from `Stopped`
(`` `Cannot deploy: current status is ${status}` `` otherwise); builds a
fresh coordinator, deploys every configured node, and ends `Running`, or
`Error` when some node fails (the transient `Initializing` status is
observable only through notifications and is overwritten either way). -/
def deploy (m : ManagerState) : Except String Unit × ManagerState :=
  if m.status ≠ .stopped then
    (.error ("Cannot deploy: current status is " ++ statusString m.status), m)
  else
    let cs0 : CoordinatorState :=
      { nodes := [], isolates := [], roundRobinIndex := 0
        enableFailover := m.configEnableFailover, strategy := m.configStrategy }
    match deployAllNodes m.configModulePath cs0 m.configNodes with
    | (.error e, cs) => (.error e, { m with status := .errorState, coordinator := some cs })
    | (.ok _, cs) => (.ok (), { m with status := .running, coordinator := some cs })

/-- `LimboDeploymentManager.evaluate`: only valid from `Running`
(`` `Cannot evaluate: deployment status is ${status}` `` otherwise; the
guard runs before the request counter is touched and before any node
selection); otherwise allocate the next request id and dispatch. -/
def evaluate (env : NetworkEnv) (m : ManagerState) (prompt : String) :
    Except String String × ManagerState :=
  if m.status ≠ .running then
    (.error ("Cannot evaluate: deployment status is " ++ statusString m.status), m)
  else
    match m.coordinator with
    | none => (.error "Coordinator not initialized", m)
    | some cs =>
      let rc := m.requestCounter + 1
      let req : InferenceRequest := { requestId := "req-" ++ toString rc, prompt := prompt }
      match dispatchFuel (healthyCount cs + 1) env req 0 cs with
      | none => (.error "out of fuel", { m with requestCounter := rc })
      | some ((.error e, cs'), _) =>
        (.error e.message, { m with requestCounter := rc, coordinator := some cs' })
      | some ((.ok resp, cs'), _) =>
        (.ok resp.result, { m with requestCounter := rc, coordinator := some cs' })

/-- `LimboDeploymentManager.pause`: only valid from `Running`. -/
def pause (m : ManagerState) : Except String Unit × ManagerState :=
  if m.status ≠ .running then
    (.error ("Cannot pause: current status is " ++ statusString m.status), m)
  else
    (.ok (), { m with status := .paused })

/-- `LimboDeploymentManager.resume`: only valid from `Paused`. -/
def resume (m : ManagerState) : Except String Unit × ManagerState :=
  if m.status ≠ .paused then
    (.error ("Cannot resume: current status is " ++ statusString m.status), m)
  else
    (.ok (), { m with status := .running })

/-- The scale-up loop: for `i` in `[0, rem)` (with `i` starting from the
given value) deploy a node with id `` `node-${curr + i}` `` and port
`basePort + i`, where `curr` is `config.nodes.length` and `basePort` is
the source's local `config.network.basePort + currentNodeCount`; stop at
the first failure. -/
def scaleUpGo (modulePath : String) (basePort curr : Nat) :
    Nat → Nat → CoordinatorState → Except String Unit × CoordinatorState
  | _, 0, cs => (.ok (), cs)
  | i, rem + 1, cs =>
    let cfg : DisVMIsolateConfig :=
      { isolateId := "node-" ++ toString (curr + i)
        modulePath := modulePath
        address := some "localhost"
        port := some (basePort + i) }
    match deployNode cs cfg with
    | .error e => (.error e, cs)
    | .ok cs' => scaleUpGo modulePath basePort curr (i + 1) rem cs'

/-- The scale-down loop: for `i` in `[0, rem)` remove the node whose id
is `config.nodes[curr - 1 - i].id`; stop at the first failure. -/
def scaleDownGo (cfgNodes : List NodeConfig) (curr : Nat) :
    Nat → Nat → CoordinatorState → Except String Unit × CoordinatorState
  | _, 0, cs => (.ok (), cs)
  | i, rem + 1, cs =>
    let nodeId := (cfgNodes.getD (curr - 1 - i) { id := "", address := "", port := 0, weight := none }).id
    match removeNode cs nodeId with
    | .error e => (.error e, cs)
    | .ok cs' => scaleDownGo cfgNodes curr (i + 1) rem cs'

/-- `LimboDeploymentManager.scale`: only valid from `Running`; compares
the target against `config.nodes.length` (which scaling never updates),
adds `target - current` generated nodes when above, removes
`current - target` entries taken from the tail of `config.nodes` when
below, and is a no-op at equality. -/
def scale (m : ManagerState) (target : Nat) : Except String Unit × ManagerState :=
  if m.status ≠ .running then
    (.error ("Cannot scale: deployment status is " ++ statusString m.status), m)
  else
    match m.coordinator with
    | none => (.error "Coordinator not initialized", m)
    | some cs =>
      let current := m.configNodes.length
      if target = current then (.ok (), m)
      else if target > current then
        match scaleUpGo m.configModulePath (m.configBasePort + current) current 0
            (target - current) cs with
        | (.error e, cs') => (.error e, { m with coordinator := some cs' })
        | (.ok _, cs') => (.ok (), { m with coordinator := some cs' })
      else
        match scaleDownGo m.configNodes current 0 (current - target) cs with
        | (.error e, cs') => (.error e, { m with coordinator := some cs' })
        | (.ok _, cs') => (.ok (), { m with coordinator := some cs' })

/-- The observable steps of a shutdown, in execution order. -/
inductive ShutdownAction
  | stopHealthTimer
  | stopAllIsolates
  | clearRegistry
  | transitionStopped
deriving DecidableEq, Repr

/-- `NetworkCoordinator.shutdown`: clear the health-check timer, stop all
isolates, clear the node registry — in that order. -/
def coordinatorShutdown (cs : CoordinatorState) : CoordinatorState × List ShutdownAction :=
  ({ cs with isolates := [], nodes := [] },
   [.stopHealthTimer, .stopAllIsolates, .clearRegistry])

/-- `LimboDeploymentManager.shutdown`: a no-op when already `Stopped`;
otherwise shut the coordinator down, drop it, and transition to
`Stopped`.  The function is total: no path throws. -/
def shutdown (m : ManagerState) : ManagerState × List ShutdownAction :=
  if m.status = .stopped then (m, [])
  else
    let acts :=
      match m.coordinator with
      | some cs => (coordinatorShutdown cs).2
      | none => []
    ({ m with coordinator := none, status := .stopped }, acts ++ [.transitionStopped])

/-- Total weight of the first `k` nodes of a snapshot; the cumulative
sums driving the weighted-random walk. -/
def cumWeight (nodes : List NetworkNode) (k : Nat) : ℚ :=
  ((nodes.take k).map (fun n => n.weight)).sum

/-- An environment whose every send fails. -/
def envFail : NetworkEnv := ⟨fun _ => false, fun _ => "", fun _ => 0, 0⟩

/-- An environment whose every send succeeds. -/
def envOk : NetworkEnv := ⟨fun _ => true, fun _ => "ok", fun _ => 0, 7⟩

/-- A freshly registered node, as `deployNode` would create it. -/
def node0 : NetworkNode := ⟨"node-0", "localhost", 8000, true, 0, 1⟩

/-- A coordinator with `node0` as its only (healthy) node. -/
def coord1 : CoordinatorState := ⟨[node0], ["node-0"], 0, true, .roundRobin⟩

/-- Two distinct weight-1 nodes for exercising the weighted-random walk. -/
def nodeA : NetworkNode := ⟨"a", "localhost", 1, true, 0, 1⟩

/-- Second node of the weighted-random example. -/
def nodeB : NetworkNode := ⟨"b", "localhost", 2, true, 0, 1⟩

/-- A node that is already unhealthy before a health-check tick. -/
def nodeUnhealthy : NetworkNode := ⟨"n0", "localhost", 8000, false, 0, 1⟩

/-- A coordinator holding only `nodeUnhealthy`, its isolate alive. -/
def coordUnhealthy : CoordinatorState := ⟨[nodeUnhealthy], ["n0"], 0, true, .roundRobin⟩

/-- A healthy node whose isolate handle is gone. -/
def nodeOrphan : NetworkNode := ⟨"n0", "localhost", 8000, true, 0, 1⟩

/-- A coordinator holding `nodeOrphan` but no isolate for it. -/
def coordOrphan : CoordinatorState := ⟨[nodeOrphan], [], 0, true, .roundRobin⟩

/-- The three-node configuration of the documentation example
(`generateNodeConfigs(3, "localhost", 8000)`). -/
def threeNodeConfigs : List NodeConfig :=
  [⟨"node-0", "localhost", 8000, some 1⟩,
   ⟨"node-1", "localhost", 8001, some 1⟩,
   ⟨"node-2", "localhost", 8002, some 1⟩]

/-- A stopped manager configured with the three documentation nodes and
base port 8000. -/
def managerStopped3 : ManagerState :=
  ⟨.stopped, none, 0, "example-deployment", "/dis/deployment/llamacpp.dis",
   threeNodeConfigs, 8000, .roundRobin, true⟩

/-- The manager after `deploy()`: three live nodes, status `Running`. -/
def managerRun : ManagerState := (deploy managerStopped3).2

/-- The manager after `deploy()` then `scale(5)`: five live nodes, but
`config.nodes` still lists three. -/
def managerScaled5 : ManagerState := (scale managerRun 5).2

/-- `managerRun` with its status forced to `Paused` (what `pause()`
produces). -/
def managerPaused : ManagerState := { managerRun with status := .paused }

/-- A stopped single-node manager whose node descriptor carries weight
`w`, for tracking a configured weight through `deploy`. -/
def managerWeighted (w : ℚ) : ManagerState :=
  ⟨.stopped, none, 0, "weighted", "mp",
   [⟨"node-0", "localhost", 8000, some w⟩], 8000, .weightedRandom, true⟩

/-- Whether `pat` occurs as a contiguous subsequence of `l`. -/
def containsSeq {α : Type} [DecidableEq α] (pat : List α) : List α → Bool
  | [] => pat.isEmpty
  | a :: t => pat.isPrefixOf (a :: t) || containsSeq pat t

/-- Whether `pat` occurs as a substring of `s`; used to check which state
names an error message mentions. -/
def containsSubstring (pat s : String) : Bool :=
  containsSeq pat.toList s.toList

/-- A node with five in-flight requests. -/
def nodeC5 : NetworkNode := ⟨"c5", "localhost", 1, true, 5, 1⟩

/-- The first of two tied minimum-connections nodes. -/
def nodeC3a : NetworkNode := ⟨"c3a", "localhost", 2, true, 3, 1⟩

/-- The second of two tied minimum-connections nodes. -/
def nodeC3b : NetworkNode := ⟨"c3b", "localhost", 3, true, 3, 1⟩

/-- The coordinator state `dispatch` leaves behind in the single-failing-
node scenario: the node marked unhealthy, its counter restored. -/
def coord1After : CoordinatorState :=
  ⟨[⟨"node-0", "localhost", 8000, false, 0, 1⟩], ["node-0"], 1, true, .roundRobin⟩

instance {ε α : Type} [DecidableEq ε] [DecidableEq α] : DecidableEq (Except ε α)
  | .error x, .error y =>
    if h : x = y then .isTrue (by rw [h]) else .isFalse (by intro hh; cases hh; exact h rfl)
  | .error _, .ok _ => .isFalse (by intro h; cases h)
  | .ok _, .error _ => .isFalse (by intro h; cases h)
  | .ok x, .ok y =>
    if h : x = y then .isTrue (by rw [h]) else .isFalse (by intro hh; cases hh; exact h rfl)

/-! Helper lemmas about node selection. -/

lemma getD_mem_or_eq {α : Type} :
    ∀ (l : List α) (i : Nat) (d : α), l.getD i d ∈ l ∨ l.getD i d = d := by
  intro l
  induction l with
  | nil => intro i d; right; simp
  | cons a t ih =>
    intro i d
    rcases i with _ | j
    · left; simp
    · rw [List.getD_cons_succ]
      rcases ih j d with hm | he
      · exact Or.inl (List.mem_cons_of_mem _ hm)
      · exact Or.inr he

lemma getD_cons_mem (h : NetworkNode) (t : List NetworkNode) (i : Nat) :
    (h :: t).getD i h ∈ h :: t := by
  rcases getD_mem_or_eq (h :: t) i h with hm | he
  · exact hm
  · rw [he]; exact List.mem_cons_self _ _

lemma selectRandom_mem (h : NetworkNode) (t : List NetworkNode) (u : ℚ) :
    selectRandom (h :: t) u h ∈ h :: t := by
  unfold selectRandom
  exact getD_cons_mem h t _

lemma selectLeastConnections_mem (h0 : NetworkNode) (t : List NetworkNode) :
    selectLeastConnections h0 t ∈ h0 :: t := by
  induction t generalizing h0 with
  | nil => simp [selectLeastConnections]
  | cons c t ih =>
    have hstep : selectLeastConnections h0 (c :: t) =
        selectLeastConnections (if c.connections < h0.connections then c else h0) t := rfl
    rw [hstep]
    have hmem := ih (if c.connections < h0.connections then c else h0)
    rcases List.mem_cons.mp hmem with he | ht
    · rw [he]
      by_cases hc : c.connections < h0.connections <;> simp [hc]
    · simp [List.mem_cons.mpr (Or.inr ht), List.mem_cons]

lemma selectWeightedRandomGo_mem :
    ∀ (l : List NetworkNode) (r : ℚ) {n : NetworkNode},
      selectWeightedRandomGo l r = some n → n ∈ l := by
  intro l
  induction l with
  | nil => intro r n h; simp [selectWeightedRandomGo] at h
  | cons m rest ih =>
    intro r n h
    by_cases hle : r - m.weight ≤ 0
    · simp [selectWeightedRandomGo, hle] at h
      simp [h]
    · simp only [selectWeightedRandomGo, if_neg hle] at h
      exact List.mem_cons_of_mem _ (ih _ h)

lemma selectWeightedRandom_getD_mem (h : NetworkNode) (t : List NetworkNode) (r : ℚ) :
    ((selectWeightedRandom (h :: t) r).getD h) ∈ h :: t := by
  unfold selectWeightedRandom
  rcases hg : selectWeightedRandomGo (h :: t) r with _ | n
  · simp
  · simpa using selectWeightedRandomGo_mem _ _ hg

lemma selectNode_mem {s : CoordinatorState} {u : ℚ} {n : NetworkNode} {i : Nat}
    (hsel : selectNode s u = (some n, i)) : n ∈ s.nodes ∧ n.isHealthy = true := by
  have hmem : n ∈ healthyNodes s := by
    unfold selectNode at hsel
    rcases hH : healthyNodes s with _ | ⟨h, t⟩ <;> rw [hH] at hsel
    · simp at hsel
    · rcases hst : s.strategy <;> rw [hst] at hsel <;>
          simp only [selectRoundRobin, Prod.mk.injEq, Option.some.injEq] at hsel <;>
          rw [← hsel.1]
      · exact getD_cons_mem h t _
      · exact selectLeastConnections_mem h t
      · exact selectRandom_mem h t u
      · exact selectWeightedRandom_getD_mem h t _
  rw [healthyNodes, List.mem_filter] at hmem
  exact ⟨hmem.1, hmem.2⟩

lemma selectNode_of_healthy_nil {s : CoordinatorState} (u : ℚ)
    (h : healthyNodes s = []) : selectNode s u = (none, s.roundRobinIndex) := by
  unfold selectNode
  rw [h]

lemma selectNode_singleton (s : CoordinatorState) {n : NetworkNode} (u : ℚ)
    (hn : s.nodes = [n]) (hh : n.isHealthy = true) :
    ∃ i, selectNode s u = (some n, i) := by
  have hH : healthyNodes s = [n] := by
    simp [healthyNodes, hn, hh]
  unfold selectNode
  rw [hH]
  rcases s.strategy
  · exact ⟨s.roundRobinIndex + 1, by simp [selectRoundRobin]⟩
  · exact ⟨s.roundRobinIndex, by simp [selectLeastConnections]⟩
  · refine ⟨s.roundRobinIndex, ?_⟩
    have hgd : ∀ i, ([n] : List NetworkNode).getD i n = n := by
      intro i
      rcases i with _ | j
      · simp
      · rw [List.getD_cons_succ]; rfl
    simp [selectRandom, hgd]
  · refine ⟨s.roundRobinIndex, ?_⟩
    rcases hg : selectWeightedRandomGo [n] (u * totalWeight [n]) with _ | m
    · simp [selectWeightedRandom, hg]
    · have hm := selectWeightedRandomGo_mem _ _ hg
      simp at hm
      simp [selectWeightedRandom, hg, hm]

/-! Helper lemmas about counting healthy nodes. -/

lemma countP_le_of_imp {α : Type} (p q : α → Bool) :
    ∀ (l : List α), (∀ a ∈ l, p a = true → q a = true) → l.countP p ≤ l.countP q := by
  intro l
  induction l with
  | nil => intro _; simp
  | cons b t ih =>
    intro himp
    rw [List.countP_cons, List.countP_cons]
    have ht := ih (fun a ha => himp a (List.mem_cons_of_mem _ ha))
    by_cases hb : p b = true
    · have hqb := himp b (List.mem_cons_self _ _) hb
      simp [hb, hqb]
      omega
    · simp only [Bool.not_eq_true] at hb
      simp [hb]
      by_cases hq : q b = true <;> simp [hq] <;> omega

lemma countP_lt_of_mem {α : Type} {p q : α → Bool} :
    ∀ {l : List α}, (∀ a ∈ l, p a = true → q a = true) →
      ∀ {x}, x ∈ l → p x = false → q x = true → l.countP p < l.countP q := by
  intro l
  induction l with
  | nil => intro _ x hx; simp at hx
  | cons b t ih =>
    intro himp x hx hpx hqx
    rw [List.countP_cons, List.countP_cons]
    have hmono := countP_le_of_imp p q t (fun a ha => himp a (List.mem_cons_of_mem _ ha))
    rcases List.mem_cons.mp hx with he | ht
    · rw [← he, hpx, hqx]
      simp
      omega
    · have := ih (fun a ha => himp a (List.mem_cons_of_mem _ ha)) ht hpx hqx
      by_cases hb : p b = true
      · have hqb := himp b (List.mem_cons_self _ _) hb
        simp [hb, hqb]; omega
      · simp only [Bool.not_eq_true] at hb
        simp [hb]
        by_cases hq : q b = true <;> simp [hq] <;> omega

lemma markDecInc_isHealthy (id : String) (n : NetworkNode) :
    (markFun id (decFun id (incFun id n))).isHealthy =
      (decide (n.isolateId ≠ id) && n.isHealthy) := by
  by_cases h : n.isolateId = id <;> simp [markFun, decFun, incFun, h]

lemma healthyCount_step_lt (s : CoordinatorState) (i : Nat) {node : NetworkNode}
    (hmem : node ∈ s.nodes) (hh : node.isHealthy = true) :
    healthyCount (markUnhealthy (decConnections
      (incConnections { s with roundRobinIndex := i } node.isolateId)
      node.isolateId) node.isolateId) < healthyCount s := by
  unfold healthyCount markUnhealthy decConnections incConnections
  simp only [List.map_map]
  rw [List.countP_map]
  refine countP_lt_of_mem ?_ hmem ?_ hh
  · intro a _ hpa
    by_cases ha : a.isolateId = node.isolateId <;>
      simp [Function.comp, markFun, decFun, incFun, ha] at hpa ⊢ <;> simp [hpa]
  · simp [Function.comp, markFun, decFun, incFun]

/-! Helper lemmas about the dispatch loop. -/

lemma map_congr_own {α β : Type} (f g : α → β) :
    ∀ (l : List α), (∀ a ∈ l, f a = g a) → l.map f = l.map g := by
  intro l
  induction l with
  | nil => intro _; rfl
  | cons a t ih =>
    intro h
    simp only [List.map_cons]
    rw [h a (List.mem_cons_self _ _), ih (fun b hb => h b (List.mem_cons_of_mem _ hb))]

lemma connView_decInc (id : String) (n : NetworkNode) :
    connView (decFun id (incFun id n)) = connView n := by
  by_cases h : n.isolateId = id <;> simp [connView, decFun, incFun, h]

lemma connView_markDecInc (id : String) (n : NetworkNode) :
    connView (markFun id (decFun id (incFun id n))) = connView n := by
  by_cases h : n.isolateId = id <;> simp [connView, markFun, decFun, incFun, h]

lemma connView_decInc_state (s : CoordinatorState) (i : Nat) (id : String) :
    (decConnections (incConnections { s with roundRobinIndex := i } id) id).nodes.map connView =
      s.nodes.map connView := by
  simp only [decConnections, incConnections, List.map_map]
  exact map_congr_own _ _ s.nodes (fun a _ => connView_decInc id a)

lemma connView_markDecInc_state (s : CoordinatorState) (i : Nat) (id : String) :
    (markUnhealthy (decConnections (incConnections { s with roundRobinIndex := i } id) id)
      id).nodes.map connView = s.nodes.map connView := by
  simp only [markUnhealthy, decConnections, incConnections, List.map_map]
  exact map_congr_own _ _ s.nodes (fun a _ => connView_markDecInc id a)

lemma dispatchFuel_connView (env : NetworkEnv) (req : InferenceRequest) :
    ∀ (fuel k : Nat) (s : CoordinatorState)
      (res : Except DispatchError InferenceResponse) (s' : CoordinatorState) (a : Nat),
      dispatchFuel fuel env req k s = some ((res, s'), a) →
      s'.nodes.map connView = s.nodes.map connView := by
  intro fuel
  induction fuel with
  | zero => intro k s res s' a h; simp [dispatchFuel] at h
  | succ fuel ih =>
    intro k s res s' a h
    rw [dispatchFuel] at h
    rcases hsel : selectNode s (env.rands k) with ⟨nopt, i⟩
    rw [hsel] at h
    rcases nopt with _ | node
    · simp only [Option.some.injEq, Prod.mk.injEq] at h
      rw [← h.1.2]
    · simp only at h
      by_cases hok : (s.isolates.contains node.isolateId && env.sendOk node.isolateId) = true
      · rw [if_pos hok] at h
        simp only [Option.some.injEq, Prod.mk.injEq] at h
        rw [← h.1.2]
        exact connView_decInc_state s i node.isolateId
      · rw [if_neg hok] at h
        by_cases hfo : s.enableFailover = true
        · rw [if_pos hfo] at h
          rcases hrec : dispatchFuel fuel env req (k + 1)
              (markUnhealthy (decConnections (incConnections { s with roundRobinIndex := i }
                node.isolateId) node.isolateId) node.isolateId) with _ | ⟨⟨res2, s5⟩, a2⟩
          · rw [hrec] at h; simp at h
          · rw [hrec] at h
            simp only [Option.some.injEq, Prod.mk.injEq] at h
            rw [← h.1.2]
            rw [ih _ _ _ _ _ hrec]
            exact connView_markDecInc_state s i node.isolateId
        · simp only [Bool.not_eq_true] at hfo
          rw [hfo] at h
          simp only [Bool.false_eq_true, if_false, Option.some.injEq, Prod.mk.injEq] at h
          rw [← h.1.2]
          exact connView_decInc_state s i node.isolateId

lemma healthyCount_pos_of_mem {s : CoordinatorState} {n : NetworkNode}
    (hmem : n ∈ s.nodes) (hh : n.isHealthy = true) : 1 ≤ healthyCount s := by
  unfold healthyCount
  have : 0 < s.nodes.countP (fun n => n.isHealthy) :=
    List.countP_pos.mpr ⟨n, hmem, by simp [hh]⟩
  omega

lemma dispatchFuel_some (env : NetworkEnv) (req : InferenceRequest) :
    ∀ (fuel k : Nat) (s : CoordinatorState), healthyCount s < fuel →
      ∃ res s' a, dispatchFuel fuel env req k s = some ((res, s'), a) ∧ a ≤ healthyCount s := by
  intro fuel
  induction fuel with
  | zero => intro k s h; omega
  | succ fuel ih =>
    intro k s hlt
    rw [dispatchFuel]
    rcases hsel : selectNode s (env.rands k) with ⟨nopt, i⟩
    rcases nopt with _ | node
    · exact ⟨.error .noHealthyNodes, { s with roundRobinIndex := i }, 0, rfl, by omega⟩
    · obtain ⟨hmem, hh⟩ := selectNode_mem hsel
      have hpos := healthyCount_pos_of_mem hmem hh
      simp only
      by_cases hok : (s.isolates.contains node.isolateId && env.sendOk node.isolateId) = true
      · rw [if_pos hok]
        exact ⟨_, _, 1, rfl, hpos⟩
      · rw [if_neg hok]
        by_cases hfo : s.enableFailover = true
        · rw [if_pos hfo]
          have hdec := healthyCount_step_lt s i hmem hh
          obtain ⟨res, s', a, hrec, ha⟩ := ih (k + 1)
            (markUnhealthy (decConnections (incConnections { s with roundRobinIndex := i }
              node.isolateId) node.isolateId) node.isolateId) (by omega)
          rw [hrec]
          exact ⟨res, s', a + 1, rfl, by omega⟩
        · simp only [Bool.not_eq_true] at hfo
          rw [hfo]
          simp only [Bool.false_eq_true, if_false]
          exact ⟨_, _, 1, rfl, hpos⟩

lemma allConnNonneg_of_connView_eq {s s' : CoordinatorState}
    (hview : s'.nodes.map connView = s.nodes.map connView)
    (hn : allConnNonneg s) : allConnNonneg s' := by
  intro n' hn'
  have : connView n' ∈ s'.nodes.map connView := List.mem_map_of_mem _ hn'
  rw [hview] at this
  obtain ⟨n, hnmem, hcv⟩ := List.mem_map.mp this
  have hconn : n.connections = n'.connections := congrArg Prod.snd hcv
  rw [← hconn]
  exact hn n hnmem

/-! Helper lemmas about the registry operations. -/

lemma mem_mapSet {x node : NetworkNode} :
    ∀ {l : List NetworkNode}, x ∈ mapSet l node → x = node ∨ x ∈ l := by
  intro l
  induction l with
  | nil => intro h; simp [mapSet] at h; exact Or.inl h
  | cons a t ih =>
    intro h
    by_cases ha : a.isolateId = node.isolateId
    · rw [mapSet, if_pos ha] at h
      rcases List.mem_cons.mp h with he | ht
      · exact Or.inl he
      · exact Or.inr (List.mem_cons_of_mem _ ht)
    · rw [mapSet, if_neg ha] at h
      rcases List.mem_cons.mp h with he | ht
      · exact Or.inr (by rw [he]; exact List.mem_cons_self _ _)
      · rcases ih ht with h1 | h2
        · exact Or.inl h1
        · exact Or.inr (List.mem_cons_of_mem _ h2)

lemma contains_true_iff (iso : List String) (x : String) :
    iso.contains x = true ↔ x ∈ iso := by
  simp

lemma healthProbe_fst_connections (env : NetworkEnv) (iso : List String) (n : NetworkNode) :
    (healthProbe env iso n).1.connections = n.connections := by
  unfold healthProbe
  by_cases h1 : n.isolateId ∈ iso
  · by_cases h2 : env.sendOk n.isolateId = true <;> simp [h1, h2]
  · simp [h1]

lemma healthProbe_fst_isolateId (env : NetworkEnv) (iso : List String) (n : NetworkNode) :
    (healthProbe env iso n).1.isolateId = n.isolateId := by
  unfold healthProbe
  by_cases h1 : n.isolateId ∈ iso
  · by_cases h2 : env.sendOk n.isolateId = true <;> simp [h1, h2]
  · simp [h1]

lemma deployNode_ok {s s' : CoordinatorState} {cfg : DisVMIsolateConfig}
    (hd : deployNode s cfg = .ok s') :
    s'.nodes = mapSet s.nodes
      { isolateId := cfg.isolateId, address := cfg.address.getD "localhost"
        port := cfg.port.getD 8000, isHealthy := true, connections := 0, weight := 1 } := by
  unfold deployNode at hd
  by_cases hc : s.isolates.contains cfg.isolateId = true
  · rw [if_pos hc] at hd; cases hd
  · rw [if_neg hc] at hd
    simp only [Except.ok.injEq] at hd
    rw [← hd]

lemma removeNode_ok {s s' : CoordinatorState} {id : String}
    (hd : removeNode s id = .ok s') :
    s'.nodes = s.nodes.filter (fun n => n.isolateId ≠ id) := by
  unfold removeNode at hd
  by_cases h1 : (s.nodes.find? (fun n => n.isolateId = id)).isNone = true
  · rw [if_pos h1] at hd; cases hd
  · rw [if_neg h1] at hd
    by_cases h2 : (!s.isolates.contains id) = true
    · rw [if_pos h2] at hd; cases hd
    · rw [if_neg h2] at hd
      simp only [Except.ok.injEq] at hd
      rw [← hd]

lemma applyOp_nonneg (s : CoordinatorState) (op : CoordOp) (h : allConnNonneg s) :
    allConnNonneg (applyOp s op) := by
  rcases op with cfg | id | ⟨env, req, k⟩ | env
  · have hred : applyOp s (CoordOp.deployNodeOp cfg) =
        (match deployNode s cfg with | .ok s' => s' | .error _ => s) := rfl
    rw [hred]
    rcases hd : deployNode s cfg with e | s'
    · exact h
    · intro n hn
      have hn' : n ∈ s'.nodes := hn
      rw [deployNode_ok hd] at hn'
      rcases mem_mapSet hn' with he | hmem
      · rw [he]
      · exact h n hmem
  · have hred : applyOp s (CoordOp.removeNodeOp id) =
        (match removeNode s id with | .ok s' => s' | .error _ => s) := rfl
    rw [hred]
    rcases hd : removeNode s id with e | s'
    · exact h
    · intro n hn
      have hn' : n ∈ s'.nodes := hn
      rw [removeNode_ok hd] at hn'
      exact h n (List.mem_filter.mp hn').1
  · have hred : applyOp s (CoordOp.dispatchOp env req k) =
        (match dispatchFuel (healthyCount s + 1) env req k s with
          | some ((_, s'), _) => s' | none => s) := rfl
    rw [hred]
    rcases hd : dispatchFuel (healthyCount s + 1) env req k s with _ | ⟨⟨res, s'⟩, a⟩
    · exact h
    · exact allConnNonneg_of_connView_eq (dispatchFuel_connView env req _ _ _ _ _ _ hd) h
  · have hred : applyOp s (CoordOp.healthTickOp env) = (healthTick env s).1 := rfl
    rw [hred]
    intro n hn
    have hn' : n ∈ s.nodes.map (fun m => (healthProbe env s.isolates m).1) := hn
    obtain ⟨m, hm, hpm⟩ := List.mem_map.mp hn'
    rw [← hpm, healthProbe_fst_connections]
    exact h m hm

lemma foldl_applyOp_nonneg :
    ∀ (ops : List CoordOp) (s : CoordinatorState), allConnNonneg s →
      allConnNonneg (ops.foldl applyOp s) := by
  intro ops
  induction ops with
  | nil => intro s h; exact h
  | cons op rest ih =>
    intro s h
    rw [List.foldl_cons]
    exact ih _ (applyOp_nonneg s op h)

/-! Helper lemmas about the health-check tick. -/

lemma healthProbe_snd_eq_some {env : NetworkEnv} {iso : List String} {n : NetworkNode}
    {id : String} (h : (healthProbe env iso n).2 = some id) :
    id = n.isolateId ∧ iso.contains n.isolateId = true ∧ env.sendOk n.isolateId = false := by
  unfold healthProbe at h
  by_cases h1 : n.isolateId ∈ iso
  · by_cases h2 : env.sendOk n.isolateId = true
    · simp [h1, h2] at h
    · simp only [Bool.not_eq_true] at h2
      simp [h1, h2] at h
      exact ⟨h.symm, (contains_true_iff iso n.isolateId).mpr h1, h2⟩
  · simp [h1] at h

lemma health_event_of_failed_probe {env : NetworkEnv} {s : CoordinatorState}
    {n : NetworkNode} (hmem : n ∈ s.nodes)
    (hc : s.isolates.contains n.isolateId = true)
    (hs : env.sendOk n.isolateId = false) :
    n.isolateId ∈ (healthTick env s).2 := by
  unfold healthTick
  simp only
  refine List.mem_filterMap.mpr ⟨n, hmem, ?_⟩
  unfold healthProbe
  simp [(contains_true_iff _ _).mp hc, hs]

lemma healthTick_isolates (env : NetworkEnv) (s : CoordinatorState) :
    (healthTick env s).1.isolates = s.isolates := rfl

lemma healthProbe_no_isolate {env : NetworkEnv} {iso : List String} {n : NetworkNode}
    (h : iso.contains n.isolateId = false) :
    healthProbe env iso n = ({ n with isHealthy := false }, none) := by
  have h' : ¬ n.isolateId ∈ iso := by
    intro hmem
    rw [(contains_true_iff iso n.isolateId).mpr hmem] at h
    cases h
  unfold healthProbe
  simp [h']

/-! Helper lemmas about the LeastConnections strategy. -/

lemma selectLeastConnections_le (h0 : NetworkNode) (t : List NetworkNode) :
    ∀ n ∈ h0 :: t, (selectLeastConnections h0 t).connections ≤ n.connections := by
  induction t generalizing h0 with
  | nil =>
    intro n hn
    rcases List.mem_cons.mp hn with he | ht
    · rw [he]; exact le_refl _
    · simp at ht
  | cons c t ih =>
    have hstep : selectLeastConnections h0 (c :: t) =
        selectLeastConnections (if c.connections < h0.connections then c else h0) t := rfl
    intro n hn
    rw [hstep]
    have hmin_h0 : (if c.connections < h0.connections then c else h0).connections ≤
        h0.connections := by
      by_cases hc : c.connections < h0.connections <;> simp [hc] <;> omega
    have hmin_c : (if c.connections < h0.connections then c else h0).connections ≤
        c.connections := by
      by_cases hc : c.connections < h0.connections <;> simp [hc] <;> omega
    have hself := ih (if c.connections < h0.connections then c else h0)
      (if c.connections < h0.connections then c else h0) (List.mem_cons_self _ _)
    rcases List.mem_cons.mp hn with he | ht
    · rw [he]; exact le_trans hself hmin_h0
    · rcases List.mem_cons.mp ht with he2 | ht2
      · rw [he2]; exact le_trans hself hmin_c
      · exact ih (if c.connections < h0.connections then c else h0) n
          (List.mem_cons_of_mem _ ht2)

lemma selectLeastConnections_find (h0 : NetworkNode) (t : List NetworkNode) :
    (h0 :: t).find? (fun n => n.connections == (selectLeastConnections h0 t).connections) =
      some (selectLeastConnections h0 t) := by
  induction t generalizing h0 with
  | nil => simp [selectLeastConnections, List.find?_cons]
  | cons c t ih =>
    have hstep : selectLeastConnections h0 (c :: t) =
        selectLeastConnections (if c.connections < h0.connections then c else h0) t := rfl
    rw [hstep]
    by_cases hc : c.connections < h0.connections
    · rw [if_pos hc]
      have hle := selectLeastConnections_le c t c (List.mem_cons_self _ _)
      have hne : (h0.connections == (selectLeastConnections c t).connections) = false := by
        simp only [beq_eq_false_iff_ne, ne_eq]
        omega
      rw [List.find?_cons, hne]
      exact ih c
    · rw [if_neg hc]
      have ihh := ih h0
      by_cases hm : (h0.connections == (selectLeastConnections h0 t).connections) = true
      · have hfind : ((h0 :: t).find?
            (fun n => n.connections == (selectLeastConnections h0 t).connections)) = some h0 := by
          rw [List.find?_cons, hm]
        have hh0 : h0 = selectLeastConnections h0 t := by
          have := hfind.symm.trans ihh
          exact Option.some.inj this
        rw [List.find?_cons, hm]
        rw [← hh0]
      · simp only [Bool.not_eq_true] at hm
        have hlt : (selectLeastConnections h0 t).connections < h0.connections := by
          have hle := selectLeastConnections_le h0 t h0 (List.mem_cons_self _ _)
          have hne : h0.connections ≠ (selectLeastConnections h0 t).connections := by
            intro he
            rw [beq_eq_false_iff_ne] at hm
            exact hm he
          omega
        have hcle : h0.connections ≤ c.connections := by omega
        have hcne : (c.connections == (selectLeastConnections h0 t).connections) = false := by
          simp only [beq_eq_false_iff_ne, ne_eq]
          omega
        rw [List.find?_cons, hm] at ihh
        rw [List.find?_cons, hm, List.find?_cons, hcne]
        exact ihh

/-! Helper lemmas about the WeightedRandom walk. -/

lemma cumWeight_cons (n : NetworkNode) (rest : List NetworkNode) (k : Nat) :
    cumWeight (n :: rest) (k + 1) = n.weight + cumWeight rest k := by
  simp [cumWeight, List.take_succ_cons]

lemma selectWeightedRandomGo_first :
    ∀ (l : List NetworkNode) (r : ℚ) (i : Nat) (hi : i < l.length),
      r ≤ cumWeight l (i + 1) → (∀ j < i, cumWeight l (j + 1) < r) →
      selectWeightedRandomGo l r = some (l.get ⟨i, hi⟩) := by
  intro l
  induction l with
  | nil => intro r i hi; simp at hi
  | cons n rest ih =>
    intro r i hi hle hgt
    rcases i with _ | j
    · have h1 : r ≤ n.weight := by
        have := hle
        rw [cumWeight_cons] at this
        simpa [cumWeight] using this
      unfold selectWeightedRandomGo
      rw [if_pos (by linarith)]
      rfl
    · have h0 : cumWeight (n :: rest) 1 < r := hgt 0 (Nat.succ_pos _)
      have hw : n.weight < r := by
        simpa [cumWeight] using h0
      unfold selectWeightedRandomGo
      rw [if_neg (by linarith)]
      have hi' : j < rest.length := by simpa using hi
      have hle' : r - n.weight ≤ cumWeight rest (j + 1) := by
        have := hle
        rw [cumWeight_cons] at this
        linarith
      have hgt' : ∀ k < j, cumWeight rest (k + 1) < r - n.weight := by
        intro k hk
        have := hgt (k + 1) (by omega)
        rw [cumWeight_cons] at this
        linarith
      rw [ih (r - n.weight) j hi' hle' hgt']
      rfl

lemma selectWeightedRandom_isSome (h : NetworkNode) (t : List NetworkNode) (r : ℚ) :
    ∃ n, selectWeightedRandom (h :: t) r = some n ∧ n ∈ h :: t := by
  unfold selectWeightedRandom
  rcases hg : selectWeightedRandomGo (h :: t) r with _ | m
  · exact ⟨h, by simp, List.mem_cons_self _ _⟩
  · exact ⟨m, rfl, selectWeightedRandomGo_mem _ _ hg⟩

lemma selectWeightedRandom_fallback {l : List NetworkNode} {r : ℚ}
    (h : selectWeightedRandomGo l r = none) :
    selectWeightedRandom l r = l.head? := by
  unfold selectWeightedRandom
  rw [h]

/-! The claims. -/

/-- C1: with failover enabled, every send failure marks the selected node
unhealthy and `dispatch` retries recursively; the recursion terminates —
fuel exceeding the healthy-node count always yields a result — and the
number of send attempts never exceeds the deployment size `N`, each retry
being paid for by one node leaving the healthy pool.  In particular, with
exactly one healthy node whose send always fails, dispatch returns
`NoHealthyNodesError` after one attempt, having marked that node
unhealthy. -/
theorem dispatch_failover_exhaustion :
    (∀ (fuel k : Nat) (env : NetworkEnv) (req : InferenceRequest) (s : CoordinatorState),
        healthyCount s < fuel →
        ∃ res s' a, dispatchFuel fuel env req k s = some ((res, s'), a) ∧
          a ≤ s.nodes.length) ∧
    (∀ (env : NetworkEnv) (req : InferenceRequest) (k i : Nat)
        (st : LoadBalancingStrategy) (n : NetworkNode),
        n.isHealthy = true → env.sendOk n.isolateId = false →
        ∃ s', dispatchFuel 2 env req k ⟨[n], [n.isolateId], i, true, st⟩ =
            some ((.error .noHealthyNodes, s'), 1) ∧
          s'.nodes.map (fun m => (m.isolateId, m.isHealthy)) = [(n.isolateId, false)]) := by
  constructor
  · intro fuel k env req s hlt
    obtain ⟨res, s', a, heq, ha⟩ := dispatchFuel_some env req fuel k s hlt
    refine ⟨res, s', a, heq, ?_⟩
    have : s.nodes.countP (fun n => n.isHealthy) ≤ s.nodes.length :=
      List.countP_le_length _
    unfold healthyCount at ha
    omega
  · intro env req k i st n hh hsend
    obtain ⟨i', hsel⟩ := selectNode_singleton ⟨[n], [n.isolateId], i, true, st⟩
      (env.rands k) rfl hh
    have h21 : (2 : Nat) = 1 + 1 := rfl
    rw [h21, dispatchFuel, hsel]
    simp only
    have hcond : ((⟨[n], [n.isolateId], i, true, st⟩ :
        CoordinatorState).isolates.contains n.isolateId && env.sendOk n.isolateId) = false := by
      rw [hsend, Bool.and_false]
    rw [hcond]
    simp only [Bool.false_eq_true, if_false, if_pos rfl]
    have hnil : healthyNodes (markUnhealthy (decConnections (incConnections
        { (⟨[n], [n.isolateId], i, true, st⟩ : CoordinatorState) with roundRobinIndex := i' }
        n.isolateId) n.isolateId) n.isolateId) = [] := by
      simp [healthyNodes, markUnhealthy, decConnections, incConnections,
        markFun, decFun, incFun]
    have h10 : (1 : Nat) = 0 + 1 := rfl
    rw [h10, dispatchFuel, selectNode_of_healthy_nil _ hnil]
    refine ⟨_, rfl, ?_⟩
    simp [markUnhealthy, decConnections, incConnections, markFun, decFun, incFun]

/-- C1 witness: the single-failing-node scenario evaluated at `node0`
with the always-failing environment. -/
theorem dispatch_failover_exhaustion_witness :
    ∃ s', dispatchFuel 2 envFail ⟨"r", "p"⟩ 0 ⟨[node0], [node0.isolateId], 0, true, .roundRobin⟩ =
        some ((.error .noHealthyNodes, s'), 1) ∧
      s'.nodes.map (fun m => (m.isolateId, m.isHealthy)) = [(node0.isolateId, false)] :=
  dispatch_failover_exhaustion.2 envFail ⟨"r", "p"⟩ 0 0 .roundRobin node0 rfl rfl

/-- C2: every dispatch restores every node's in-flight counter — the
decrement runs on the success and on every failure path, so after a send
failure the counter is back where it started — and the counters stay
non-negative under any sequence of coordinator operations. -/
theorem dispatch_connections_balanced :
    (∀ (fuel k : Nat) (env : NetworkEnv) (req : InferenceRequest) (s : CoordinatorState)
        (res : Except DispatchError InferenceResponse) (s' : CoordinatorState) (a : Nat),
        dispatchFuel fuel env req k s = some ((res, s'), a) →
        s'.nodes.map connView = s.nodes.map connView) ∧
    (∀ (ops : List CoordOp) (s : CoordinatorState),
        allConnNonneg s → allConnNonneg (ops.foldl applyOp s)) :=
  ⟨fun fuel k env req s res s' a h => dispatchFuel_connView env req fuel k s res s' a h,
   fun ops s h => foldl_applyOp_nonneg ops s h⟩

/-- C2 witness: after the failing dispatch against `coord1`, the sole
node's counter is back to `0`. -/
theorem dispatch_connections_balanced_witness :
    coord1After.nodes.map connView = coord1.nodes.map connView :=
  dispatch_connections_balanced.1 2 0 envFail ⟨"r", "p"⟩ coord1
    (.error .noHealthyNodes) coord1After 1 (by decide)

/-- C3 (amended): each lifecycle operation invoked outside its allowed
state — `deploy` outside `Stopped`, `evaluate`/dispatch, `pause` and
`scale` outside `Running`, `resume` outside `Paused` — fails with an
error naming the operation and the current state, and leaves the manager
(nodes, counters, request counter) exactly unchanged, performing no node
selection and no network side effect.  (The claim's stronger reading that
the message also names the required state is refuted by
`invalid_state_required_not_named`.) -/
theorem state_guard_rejections :
    (∀ m : ManagerState, m.status ≠ .stopped →
        deploy m = (.error ("Cannot deploy: current status is " ++ statusString m.status), m)) ∧
    (∀ (env : NetworkEnv) (m : ManagerState) (p : String), m.status ≠ .running →
        evaluate env m p =
          (.error ("Cannot evaluate: deployment status is " ++ statusString m.status), m)) ∧
    (∀ m : ManagerState, m.status ≠ .running →
        pause m = (.error ("Cannot pause: current status is " ++ statusString m.status), m)) ∧
    (∀ m : ManagerState, m.status ≠ .paused →
        resume m = (.error ("Cannot resume: current status is " ++ statusString m.status), m)) ∧
    (∀ (m : ManagerState) (t : Nat), m.status ≠ .running →
        scale m t =
          (.error ("Cannot scale: deployment status is " ++ statusString m.status), m)) := by
  refine ⟨?_, ?_, ?_, ?_, ?_⟩
  · intro m hm
    unfold deploy
    rw [if_pos hm]
  · intro env m p hm
    unfold evaluate
    rw [if_pos hm]
  · intro m hm
    unfold pause
    rw [if_pos hm]
  · intro m hm
    unfold resume
    rw [if_pos hm]
  · intro m t hm
    unfold scale
    rw [if_pos hm]

/-- C3 witness: `evaluate` on a paused manager rejects and leaves the
state untouched. -/
theorem state_guard_rejections_witness :
    evaluate envOk managerPaused "hi" =
      (.error ("Cannot evaluate: deployment status is " ++ statusString managerPaused.status),
       managerPaused) :=
  state_guard_rejections.2.1 envOk managerPaused "hi" (by decide)

/-- C3 counterexample to the claim as stated: the rejection message of an
`evaluate` issued while `Paused` names the current state (`paused`) but
not the required state (`running` occurs nowhere in it). -/
theorem invalid_state_required_not_named :
    (evaluate envOk managerPaused "hi").1 =
      .error "Cannot evaluate: deployment status is paused" ∧
    containsSubstring "paused" "Cannot evaluate: deployment status is paused" = true ∧
    containsSubstring "running" "Cannot evaluate: deployment status is paused" = false := by
  refine ⟨by decide, by decide, by decide⟩

/-- C4: the code contradicts the claim (and the module documentation) on
repeated scaling, because `scale` never updates `config.nodes`: from the
three-node deployment, `scale 5` adds `node-3`/`node-4` with
non-colliding ports `8003`/`8004`, but a following `scale 3` — which the
documentation says scales back down to three nodes — compares the target
against the stale configured count `3` and is a complete no-op (five
nodes stay live), and a repeated `scale 5` regenerates the id `node-3`
and collides with the node added by the first call. -/
theorem scale_stale_config_eval :
    (deploy managerStopped3).1 = .ok () ∧
    (managerScaled5.coordinator.map fun cs => cs.nodes.map (fun n => (n.isolateId, n.port))) =
      some [("node-0", 8000), ("node-1", 8001), ("node-2", 8002),
            ("node-3", 8003), ("node-4", 8004)] ∧
    managerScaled5.configNodes.length = 3 ∧
    scale managerScaled5 3 = (.ok (), managerScaled5) ∧
    (scale managerScaled5 5).1 = .error "Isolate node-3 already exists" := by
  refine ⟨by decide, by decide, by decide, by decide, by decide⟩

/-- C5 (amended): the health check raises `node-unhealthy` on EVERY
failed probe of a node whose isolate is alive — hence at least once per
healthy-to-unhealthy transition, but also again on each consecutive
failure (two consecutive failing ticks emit twice) — and a successful
probe sets `isHealthy` back to `true`.  (The claim's exactly-once-per-
transition reading is refuted by `health_event_reraise_counterexample`.) -/
theorem health_event_every_failed_probe :
    (∀ (env : NetworkEnv) (s : CoordinatorState) (n : NetworkNode), n ∈ s.nodes →
        s.isolates.contains n.isolateId = true → env.sendOk n.isolateId = false →
        n.isolateId ∈ (healthTick env s).2 ∧
        n.isolateId ∈ (healthTick env (healthTick env s).1).2) ∧
    (∀ (env : NetworkEnv) (s : CoordinatorState) (i : Nat) (n : NetworkNode),
        s.nodes.get? i = some n → s.isolates.contains n.isolateId = true →
        env.sendOk n.isolateId = true →
        (healthTick env s).1.nodes.get? i = some { n with isHealthy := true }) := by
  constructor
  · intro env s n hmem hc hs
    refine ⟨health_event_of_failed_probe hmem hc hs, ?_⟩
    have hmem2 : (healthProbe env s.isolates n).1 ∈ (healthTick env s).1.nodes :=
      List.mem_map_of_mem _ hmem
    have hid := healthProbe_fst_isolateId env s.isolates n
    have h2 := health_event_of_failed_probe hmem2
      (by rw [healthTick_isolates, hid]; exact hc)
      (by rw [hid]; exact hs)
    rw [hid] at h2
    exact h2
  · intro env s i n hget hc hs
    have hmap : (healthTick env s).1.nodes.get? i =
        (s.nodes.get? i).map (fun m => (healthProbe env s.isolates m).1) := by
      unfold healthTick
      simp [List.get?_map]
    rw [hmap, hget]
    have hpr : healthProbe env s.isolates n = ({ n with isHealthy := true }, none) := by
      unfold healthProbe
      simp [(contains_true_iff _ _).mp hc, hs]
    show some (healthProbe env s.isolates n).1 = _
    rw [hpr]

/-- C5 witness: a failing probe on a live isolate emits the notification
on two consecutive ticks (concrete one-node registry). -/
theorem health_event_every_failed_probe_witness :
    "n0" ∈ (healthTick envFail coordUnhealthy).2 ∧
    "n0" ∈ (healthTick envFail (healthTick envFail coordUnhealthy).1).2 :=
  health_event_every_failed_probe.1 envFail coordUnhealthy nodeUnhealthy
    (List.mem_cons_self _ _) rfl rfl

/-- C5 counterexample to the claim as stated: `nodeUnhealthy` is already
unhealthy — this tick performs no healthy-to-unhealthy transition — yet
the `node-unhealthy` notification is raised (again). -/
theorem health_event_reraise_counterexample :
    nodeUnhealthy.isHealthy = false ∧
    coordUnhealthy.nodes = [nodeUnhealthy] ∧
    (healthTick envFail coordUnhealthy).2 = ["n0"] :=
  ⟨rfl, rfl, by decide⟩

/-- C6 (amended): a node with no live isolate handle emits no
notification during the tick, but it is NOT left unchanged: its
`isHealthy` flag is forced to `false` (all other fields are preserved). -/
theorem health_missing_isolate_marks_unhealthy :
    ∀ (env : NetworkEnv) (s : CoordinatorState) (i : Nat) (n : NetworkNode),
      s.nodes.get? i = some n → s.isolates.contains n.isolateId = false →
      (healthTick env s).1.nodes.get? i = some { n with isHealthy := false } ∧
      n.isolateId ∉ (healthTick env s).2 := by
  intro env s i n hget hc
  constructor
  · have hmap : (healthTick env s).1.nodes.get? i =
        (s.nodes.get? i).map (fun m => (healthProbe env s.isolates m).1) := by
      unfold healthTick
      simp [List.get?_map]
    rw [hmap, hget]
    show some (healthProbe env s.isolates n).1 = _
    rw [healthProbe_no_isolate hc]
  · intro hmem
    have : n.isolateId ∈ s.nodes.filterMap (fun m => (healthProbe env s.isolates m).2) := hmem
    obtain ⟨a, _, hpa⟩ := List.mem_filterMap.mp this
    obtain ⟨hid, hca, _⟩ := healthProbe_snd_eq_some hpa
    rw [← hid] at hca
    rw [hca] at hc
    cases hc

/-- C6 witness: the orphaned-node tick evaluated concretely. -/
theorem health_missing_isolate_marks_unhealthy_witness :
    (healthTick envFail coordOrphan).1.nodes.get? 0 =
      some { nodeOrphan with isHealthy := false } ∧
    nodeOrphan.isolateId ∉ (healthTick envFail coordOrphan).2 :=
  health_missing_isolate_marks_unhealthy envFail coordOrphan 0 nodeOrphan rfl rfl

/-- C6 counterexample to the claim as stated: `nodeOrphan` is healthy and
has no isolate handle; the claim says the tick leaves its registry entry
exactly as it was, but the tick flips `isHealthy` to `false`. -/
theorem health_missing_isolate_counterexample :
    nodeOrphan.isHealthy = true ∧
    coordOrphan.isolates = [] ∧
    (healthTick envFail coordOrphan).1.nodes = [{ nodeOrphan with isHealthy := false }] ∧
    (healthTick envFail coordOrphan).1.nodes ≠ coordOrphan.nodes := by
  refine ⟨rfl, rfl, by decide, by decide⟩

/-- C7: the code contradicts the claim (and the module documentation on
weighted balancing): whatever weight `w` the node descriptor carries, the
isolate configuration built by `deploy` has no weight field at all and
`deployNode` registers the node with the literal weight `1.0`, so the
weight-aware strategies never see the configured value (`w = 3` included)
and no positivity check ever runs. -/
theorem deploy_weight_ignored :
    ∀ w : ℚ,
      (toIsolateConfig "mp" ⟨"node-0", "localhost", 8000, some w⟩ =
        ⟨"node-0", "mp", some "localhost", some 8000⟩) ∧
      (deploy (managerWeighted w)).1 = .ok () ∧
      ((deploy (managerWeighted w)).2.coordinator.map fun cs =>
          cs.nodes.map (fun n => n.weight)) = some [1] := by
  intro w
  exact ⟨rfl, rfl, rfl⟩

/-- C8 (amended): the weighted-random walk subtracts weights from the
drawn value `r` and returns the first node whose cumulative weight
reaches `r`; when the walk selects nothing (drift pushing `r` past the
total weight) it falls back to the FIRST node of the snapshot —
`nodes[0]!`, not the last node — and on a nonempty snapshot it always
returns some member, never failing on rounding alone.  (The claim's
last-node fallback is refuted by `weighted_fallback_counterexample`.) -/
theorem weighted_random_walk :
    (∀ (l : List NetworkNode) (r : ℚ) (i : Nat) (hi : i < l.length),
        r ≤ cumWeight l (i + 1) → (∀ j < i, cumWeight l (j + 1) < r) →
        selectWeightedRandom l r = some (l.get ⟨i, hi⟩)) ∧
    (∀ (l : List NetworkNode) (r : ℚ), selectWeightedRandomGo l r = none →
        selectWeightedRandom l r = l.head?) ∧
    (∀ (h : NetworkNode) (t : List NetworkNode) (r : ℚ),
        ∃ n, selectWeightedRandom (h :: t) r = some n ∧ n ∈ h :: t) := by
  refine ⟨?_, ?_, ?_⟩
  · intro l r i hi hle hgt
    unfold selectWeightedRandom
    rw [selectWeightedRandomGo_first l r i hi hle hgt]
  · intro l r h
    exact selectWeightedRandom_fallback h
  · intro h t r
    exact selectWeightedRandom_isSome h t r

/-- C8 witness: with weights `1, 1` and draw `3/2` the walk passes the
first node (cumulative `1 < 3/2`) and stops at the second (cumulative
`2 ≥ 3/2`). -/
theorem weighted_random_walk_witness :
    selectWeightedRandom [nodeA, nodeB] (3 / 2) = some nodeB := by
  have hle : (3 / 2 : ℚ) ≤ cumWeight [nodeA, nodeB] (1 + 1) := by
    norm_num [cumWeight, nodeA, nodeB]
  have hgt : ∀ j < 1, cumWeight [nodeA, nodeB] (j + 1) < 3 / 2 := by
    intro j hj
    have hj0 : j = 0 := by omega
    subst hj0
    norm_num [cumWeight, nodeA, nodeB]
  exact weighted_random_walk.1 [nodeA, nodeB] (3 / 2) 1 (by norm_num) hle hgt

/-- C8 counterexample to the claim as stated: a draw past the total
weight (the rational stand-in for floating-point drift) makes the walk
select nothing, and the fallback returns `nodeA` — the FIRST node of the
snapshot — while the claim promises the last node, `nodeB`. -/
theorem weighted_fallback_counterexample :
    totalWeight [nodeA, nodeB] = 2 ∧
    selectWeightedRandomGo [nodeA, nodeB] (5 / 2) = none ∧
    selectWeightedRandom [nodeA, nodeB] (5 / 2) = some nodeA ∧
    [nodeA, nodeB].getLast? = some nodeB ∧
    nodeA ≠ nodeB := by
  have hgo : selectWeightedRandomGo [nodeA, nodeB] (5 / 2) = none := by
    norm_num [selectWeightedRandomGo, nodeA, nodeB]
  refine ⟨by norm_num [totalWeight, nodeA, nodeB], hgo, ?_, rfl, by simp [nodeA, nodeB]⟩
  rw [selectWeightedRandom_fallback hgo]
  rfl

/-- C9: LeastConnections returns a node whose in-flight counter is `≤`
that of every node of the snapshot, and it is the first node of the
snapshot attaining that minimum (`find?` with the minimal count returns
exactly the selected node), the deterministic earliest-index tie-break. -/
theorem least_connections_minimal_first :
    ∀ (h0 : NetworkNode) (t : List NetworkNode),
      (∀ n ∈ h0 :: t, (selectLeastConnections h0 t).connections ≤ n.connections) ∧
      (h0 :: t).find? (fun n => n.connections == (selectLeastConnections h0 t).connections) =
        some (selectLeastConnections h0 t) :=
  fun h0 t => ⟨selectLeastConnections_le h0 t, selectLeastConnections_find h0 t⟩

/-- C9 witness: on the snapshot `[5, 3, 3]` the selection has minimal
count and `find?` picks the earlier of the two tied nodes. -/
theorem least_connections_minimal_first_witness :
    (selectLeastConnections nodeC5 [nodeC3a, nodeC3b]).connections ≤ nodeC3b.connections ∧
    [nodeC5, nodeC3a, nodeC3b].find?
        (fun n => n.connections == (selectLeastConnections nodeC5 [nodeC3a, nodeC3b]).connections) =
      some (selectLeastConnections nodeC5 [nodeC3a, nodeC3b]) := by
  have h := least_connections_minimal_first nodeC5 [nodeC3a, nodeC3b]
  exact ⟨h.1 nodeC3b (by decide), h.2⟩

/-- C10: shutdown from any non-stopped state performs, in order: stop the
health-check timer, stop all isolates, clear the registry, transition to
`Stopped`; shutdown of a `Stopped` manager is a pure no-op; and shutdown
is idempotent — after any shutdown the status is `Stopped` and a second
call changes nothing and performs no action (the function is total, so
neither call can error). -/
theorem shutdown_idempotent_ordered :
    (∀ (m : ManagerState) (cs : CoordinatorState), m.status ≠ .stopped →
        m.coordinator = some cs →
        shutdown m = ({ m with coordinator := none, status := .stopped },
          [.stopHealthTimer, .stopAllIsolates, .clearRegistry, .transitionStopped])) ∧
    (∀ m : ManagerState, m.status = .stopped → shutdown m = (m, [])) ∧
    (∀ m : ManagerState,
        (shutdown m).1.status = .stopped ∧
        shutdown (shutdown m).1 = ((shutdown m).1, [])) := by
  refine ⟨?_, ?_, ?_⟩
  · intro m cs hm hcs
    unfold shutdown
    rw [if_neg hm, hcs]
    rfl
  · intro m hm
    unfold shutdown
    rw [if_pos hm]
  · intro m
    by_cases hm : m.status = .stopped
    · have h1 : shutdown m = (m, []) := by unfold shutdown; rw [if_pos hm]
      rw [h1]
      exact ⟨hm, by unfold shutdown; rw [if_pos hm]⟩
    · have h1 : (shutdown m).1 = { m with coordinator := none, status := .stopped } := by
        unfold shutdown
        rw [if_neg hm]
      rw [h1]
      refine ⟨rfl, ?_⟩
      unfold shutdown
      rw [if_pos rfl]

/-- C10 witness: the double shutdown evaluated on the running three-node
manager: the first call emits the four actions in order and stops the
manager; the second is a silent no-op. -/
theorem shutdown_idempotent_ordered_witness :
    shutdown managerRun = ({ managerRun with coordinator := none, status := .stopped },
      [.stopHealthTimer, .stopAllIsolates, .clearRegistry, .transitionStopped]) ∧
    shutdown (shutdown managerRun).1 = ((shutdown managerRun).1, []) := by
  constructor
  · exact shutdown_idempotent_ordered.1 managerRun
      ((deploy managerStopped3).2.coordinator.get (by decide)) (by decide) (by decide)
  · exact (shutdown_idempotent_ordered.2.2 managerRun).2

end NodeLlamaCpp
